import Mathlib

/-!
# corex: option merging and one-time initialisation

A shallow embedding of the three initialisation helpers of `ape902/corex`
(`logx`, `gormx`, `redisx`).  Go pointers to option records become explicit
record passing, package-level variables become fields of a state record, and
the third-party clients are represented by the configuration values handed to
them.  Go strings are taken to be valid UTF-8 and are represented by their
code points; Go `int` values pass through the code without arithmetic and are
integers; `time.Duration` products wrap to `int64`.
-/

namespace Corex

/-- Last value set for a field along an option list, in the words of the
specification: the value carried by the last entry that targets the field
(`sel` gives the value an entry sets it to), `dflt` when no entry does. -/
def lastSet {α β : Type} (sel : α → Option β) (dflt : β) (l : List α) : β :=
  ((l.filterMap sel).getLast?).getD dflt

/-! ## Go standard library pieces used by the source -/

namespace strings

/-- ASCII branch of Go `strings.ToLower`: `c += 'a' - 'A'` on `'A'..'Z'`. -/
def asciiLower (c : Char) : Char :=
  if 'A' ≤ c ∧ c ≤ 'Z' then Char.ofNat (c.toNat + 32) else c

/-- Go `strings.ToLower`.  A string whose bytes are all below `utf8.RuneSelf`
takes the ASCII fast path; any other string is mapped rune by rune through
`unicode.ToLower`, whose case table is the parameter `unicodeToLower`. -/
def ToLower (unicodeToLower : Char → Char) (s : String) : String :=
  if s.data.all (fun c => decide (c.toNat < 128)) then
    String.mk (s.data.map asciiLower)
  else
    String.mk (s.data.map unicodeToLower)

end strings

namespace path

/-- Elements of a path between slashes (the positions the scanning loop of
`path.Clean` stops at). -/
def splitSlash : List Char → List (List Char)
  | [] => [[]]
  | c :: cs =>
    match splitSlash cs with
    | [] => [[c]]
    | e :: es => if c = '/' then [] :: e :: es else (c :: e) :: es

/-- Backtracking loop of `path.Clean` on a `..` element:
`for out.w > dotdot && out.index(out.w) != '/' { out.w-- }`. -/
def backIdx (buf : List Char) (dotdot : Nat) : Nat → Nat
  | 0 => 0
  | w + 1 =>
    if w + 1 > dotdot ∧ buf.getD (w + 1) '/' ≠ '/' then backIdx buf dotdot w else w + 1

/-- One iteration of the `for r < n` loop of `path.Clean` on the element
starting at `r`; the state is the output buffer and the `dotdot` index. -/
def cleanStep (rooted : Bool) (st : List Char × Nat) (e : List Char) : List Char × Nat :=
  if e = [] then st
  else if e = ['.'] then st
  else if e = ['.', '.'] then
    if st.1.length > st.2 then
      (st.1.take (backIdx st.1 st.2 (st.1.length - 1)), st.2)
    else if rooted = false then
      let out1 := if st.1.length > 0 then st.1 ++ ['/'] else st.1
      (out1 ++ ['.', '.'], (out1 ++ ['.', '.']).length)
    else st
  else
    let out1 :=
      if (rooted = true ∧ st.1.length ≠ 1) ∨ (rooted = false ∧ st.1.length ≠ 0) then
        st.1 ++ ['/']
      else st.1
    (out1 ++ e, st.2)

/-- The loop of `path.Clean` run over a non-empty path: the output buffer and
the `dotdot` index when the scan reaches the end. -/
def cleanState (data : List Char) : List Char × Nat :=
  let rooted : Bool := decide (data.head? = some '/')
  let init : List Char × Nat := if rooted = true then (['/'], 1) else ([], 0)
  let body := if rooted = true then data.tail else data
  (splitSlash body).foldl (cleanStep rooted) init

/-- Go `path.Clean`: the shortest path equivalent to `p` by lexical
processing. -/
def Clean (p : String) : String :=
  if p = "" then "."
  else
    let out := (cleanState p.data).1
    if out.length = 0 then "." else String.mk out

/-- Buffer filling loop of Go `path.Join`: elements are appended with a
separating slash once the buffer is non-empty; leading empty elements are
skipped. -/
def joinBuf (elem : List String) : String :=
  elem.foldl
    (fun buf e =>
      if buf ≠ "" ∨ e ≠ "" then (if buf ≠ "" then buf ++ "/" else buf) ++ e else buf)
    ""

/-- Go `path.Join`. -/
def Join (elem : List String) : String :=
  if (elem.map String.length).sum = 0 then "" else Clean (joinBuf elem)

end path

/-! ## logx -/

namespace zapcore

/-- Severity `zapcore.Level` (an `int8`). -/
abbrev Level := Int

def DebugLevel : Level := -1
def InfoLevel : Level := 0
def WarnLevel : Level := 1
def ErrorLevel : Level := 2
def DPanicLevel : Level := 3
def PanicLevel : Level := 4
def FatalLevel : Level := 5

/-- Sinks handed to `zapcore.AddSync`: `os.Stdout` or a `lumberjack.Logger`
with its configuration fields. -/
inductive WriteSyncer where
  | stdout
  | lumberjack (Filename : String) (MaxSize MaxAge MaxBackups : Int) (Compress : Bool)
  deriving DecidableEq, Repr

end zapcore

namespace logx

open zapcore

/-- Package variable `levelMap`. -/
def levelMap : List (String × Level) :=
  [("debug", DebugLevel), ("info", InfoLevel), ("warn", WarnLevel), ("error", ErrorLevel),
   ("dpanic", DPanicLevel), ("panic", PanicLevel), ("fatal", FatalLevel)]

/-- Record `loggerConf`. -/
structure loggerConf where
  Mode : String
  LogPath : String
  Level : String
  ServerName : String
  MaxSize : Int
  MaxDay : Int
  MaxBackups : Int
  Compress : Bool
  deriving DecidableEq, Repr

/-- Zero value `&loggerConf{}`. -/
def loggerConf.zero : loggerConf :=
  { Mode := "", LogPath := "", Level := "", ServerName := "",
    MaxSize := 0, MaxDay := 0, MaxBackups := 0, Compress := false }

/-- Type `OptionFunc func(conf *loggerConf)`; a nil function is `none` in an
option list. -/
abbrev OptionFunc := loggerConf → loggerConf

def WithMode (mode : String) : OptionFunc := fun conf => { conf with Mode := mode }

def WithLogPath (p : String) : OptionFunc := fun conf => { conf with LogPath := p }

def WithLevel (unicodeToLower : Char → Char) (level : String) : OptionFunc :=
  fun conf => { conf with Level := strings.ToLower unicodeToLower level }

def WithServerName (name : String) : OptionFunc := fun conf => { conf with ServerName := name }

def WithMaxSize (size : Int) : OptionFunc := fun conf => { conf with MaxSize := size }

def WithMaxDay (size : Int) : OptionFunc := fun conf => { conf with MaxDay := size }

def WithBackups (size : Int) : OptionFunc := fun conf => { conf with MaxBackups := size }

def WithCompress (status : Bool) : OptionFunc := fun conf => { conf with Compress := status }

/-- Function `getLoggerLevel`. -/
def getLoggerLevel (lvl : String) : Level :=
  match levelMap.lookup lvl with
  | some level => level
  | none => InfoLevel

/-- The core built by `zapcore.NewCore`: its sinks and its level.  The
encoder is the same constant in every build. -/
structure Logger where
  syncWriters : List WriteSyncer
  level : Level
  deriving DecidableEq, Repr

/-- Package variables of `logx`: `log` (nil is `none`), the done flag of
`setupOnce`, and `fileName`.  `coresBuilt` counts the executions of
`zapcore.NewCore` and is not read by the code. -/
structure State where
  log : Option Logger
  setupOnce : Bool
  fileName : String
  coresBuilt : Nat
  deriving DecidableEq, Repr

/-- Package state at process start. -/
def State.init : State :=
  { log := none, setupOnce := false, fileName := "", coresBuilt := 0 }

/-- The loop `for _, f := range opt { if f != nil { f(conf) } }`. -/
def applyOptions (opt : List (Option OptionFunc)) (conf : loggerConf) : loggerConf :=
  opt.foldl (fun c f => match f with
    | some g => g c
    | none => c) conf

/-- Tail of the closure after the `switch`: level lookup, `zapcore.NewCore`,
assignment of `log`. -/
def buildCore (syncWriters : List WriteSyncer) (conf : loggerConf) (st : State) : State :=
  { st with
    log := some { syncWriters := syncWriters, level := getLoggerLevel conf.Level },
    coresBuilt := st.coresBuilt + 1 }

/-- Body of the closure passed to `setupOnce.Do`.  `filePanics` says whether
building the file sink (the `lumberjack.Logger` literal and `zapcore.AddSync`)
panics; with the constructors as they are it is `false` in every run.  A
panic is recovered by the deferred function, which appends `os.Stdout` to the
local `syncWriters`; the deferred function runs while the closure unwinds, so
the closure returns without reaching the statements after the `switch`. -/
def setup (filePanics : Bool) (conf : loggerConf) (st : State) : State :=
  if conf.Mode = "file" then
    let conf1 := if conf.LogPath = "" then { conf with LogPath := "./log" } else conf
    let conf2 := if conf1.ServerName = "" then { conf1 with ServerName := "log" } else conf1
    let st1 := { st with fileName := path.Join [conf2.LogPath, conf2.ServerName ++ ".log"] }
    if filePanics = true then
      st1
    else
      buildCore
        [WriteSyncer.lumberjack st1.fileName conf2.MaxSize conf2.MaxDay conf2.MaxBackups
          conf2.Compress]
        conf2 st1
  else
    buildCore [WriteSyncer.stdout] conf st

/-- Method `sync.Once.Do` on `setupOnce`. -/
def onceDo (f : State → State) (st : State) : State :=
  if st.setupOnce = true then st else { f st with setupOnce := true }

/-- Function `NewLoggerOption`. -/
def NewLoggerOption (filePanics : Bool) (opt : List (Option OptionFunc)) (st : State) : State :=
  let conf := applyOptions opt loggerConf.zero
  let st1 := { st with fileName := path.Join [conf.LogPath, conf.ServerName ++ ".log"] }
  onceDo (setup filePanics conf) st1

/-- A sequence of calls of `NewLoggerOption`, each with the behaviour of its
file-sink construction and its option list. -/
def runCalls (calls : List (Bool × List (Option OptionFunc))) (st : State) : State :=
  calls.foldl (fun s c => NewLoggerOption c.1 c.2 s) st


/-- Minimum severity of the logger in effect, when there is one. -/
def severity (st : State) : Option Level := st.log.map Logger.level

/-- Level table in the words of the specification: the seven recognised
lowercase names with their ranks, and info for any other name. -/
def specLevel (name : String) : Level :=
  if name = "debug" then DebugLevel
  else if name = "info" then InfoLevel
  else if name = "warn" then WarnLevel
  else if name = "error" then ErrorLevel
  else if name = "dpanic" then DPanicLevel
  else if name = "panic" then PanicLevel
  else if name = "fatal" then FatalLevel
  else InfoLevel

/-- The ways a caller writes one entry of the option list of
`NewLoggerOption`: a call of one of the eight constructors, or nil. -/
inductive Opt where
  | mode (m : String)
  | logPath (p : String)
  | level (l : String)
  | serverName (n : String)
  | maxSize (n : Int)
  | maxDay (n : Int)
  | backups (n : Int)
  | compress (b : Bool)
  | nil
  deriving DecidableEq, Repr

/-- The option value an entry denotes. -/
def Opt.toFunc (unicodeToLower : Char → Char) : Opt → Option OptionFunc
  | .mode m => some (WithMode m)
  | .logPath p => some (WithLogPath p)
  | .level l => some (WithLevel unicodeToLower l)
  | .serverName n => some (WithServerName n)
  | .maxSize n => some (WithMaxSize n)
  | .maxDay n => some (WithMaxDay n)
  | .backups n => some (WithBackups n)
  | .compress b => some (WithCompress b)
  | .nil => none

/-- Whether an entry is a call of `WithLevel`. -/
def Opt.isLevel : Opt → Bool
  | .level _ => true
  | _ => false

/-- Whether an entry is a call of one of the four rotation constructors
`WithMaxSize`, `WithMaxDay`, `WithBackups`, `WithCompress`. -/
def Opt.isRotation : Opt → Bool
  | .maxSize _ => true
  | .maxDay _ => true
  | .backups _ => true
  | .compress _ => true
  | _ => false

/-- The value an entry gives to `WithMaxSize`, if it is such a call. -/
def Opt.sizeVal : Opt → Option Int
  | .maxSize n => some n
  | _ => none

/-- The value an entry gives to `WithMaxDay`, if it is such a call. -/
def Opt.dayVal : Opt → Option Int
  | .maxDay n => some n
  | _ => none

/-- The value an entry gives to `WithBackups`, if it is such a call. -/
def Opt.backupsVal : Opt → Option Int
  | .backups n => some n
  | _ => none

/-- The value an entry gives to `WithCompress`, if it is such a call. -/
def Opt.compressVal : Opt → Option Bool
  | .compress b => some b
  | _ => none

/-- Whether a sink is the rotating file sink. -/
def isFileSink : WriteSyncer → Bool
  | .lumberjack _ _ _ _ _ => true
  | .stdout => false

end logx

/-! ## gormx -/

namespace time

/-- Type `time.Duration`: an `int64` count of nanoseconds. -/
abbrev Duration := Int

/-- Two's complement wrap-around of a result to `int64`. -/
def wrapInt64 (x : Int) : Int := (x + 2 ^ 63) % 2 ^ 64 - 2 ^ 63

def Nanosecond : Duration := 1
def Microsecond : Duration := 1000 * Nanosecond
def Millisecond : Duration := 1000 * Microsecond
def Second : Duration := 1000 * Millisecond
def Minute : Duration := 60 * Second

/-- Run-time product of two durations (`int64` multiplication). -/
def mul (a b : Duration) : Duration := wrapInt64 (a * b)

end time

namespace gormx

def DefaultMaxOpenConn : Int := 1000
def DefaultMaxIdleConn : Int := 100
def DefaultConnMaxLifeSecond : time.Duration := 30 * time.Minute
def DefaultLogName : String := "gorm"

/-- Record `gormStruct`. -/
structure gormStruct where
  dbType : String
  username : String
  password : String
  host : String
  port : String
  dbName : String
  deriving DecidableEq, Repr

/-- Record `option`. -/
structure option where
  MaxOpenConn : Int
  MaxIdleConn : Int
  ConnMaxLifeSecond : time.Duration
  PrepareStmt : Bool
  LogName : String
  deriving DecidableEq, Repr

/-- Zero value `&option{}`. -/
def option.zero : option :=
  { MaxOpenConn := 0, MaxIdleConn := 0, ConnMaxLifeSecond := 0, PrepareStmt := false,
    LogName := "" }

/-- Type `OptionFunc func(opt *option)`; a nil function is `none` in an
option list. -/
abbrev OptionFunc := option → option

def WithMaxOpenConn (num : Int) : OptionFunc := fun opt => { opt with MaxOpenConn := num }

def WithMaxIdleConn (num : Int) : OptionFunc := fun opt => { opt with MaxIdleConn := num }

def WithMaxLifeSecond (num : time.Duration) : OptionFunc :=
  fun opt => { opt with ConnMaxLifeSecond := num }

def WithLogName (name : String) : OptionFunc := fun opt => { opt with LogName := name }

/-- Value built by `mysql.Open`: the driver with its connection string. -/
inductive Dialector where
  | mysql (dsn : String)
  deriving DecidableEq, Repr

/-- Verb `%t` of `fmt.Sprintf`. -/
def fmtBool (b : Bool) : String := if b = true then "true" else "false"

/-- Method `gormStruct.BuildDSN`; a nil dialector is `none`. -/
def BuildDSN (g : gormStruct) : Option Dialector :=
  if g.dbType = "mysql" then
    some (Dialector.mysql
      (g.username ++ ":" ++ g.password ++ "@tcp(" ++ g.host ++ ":" ++ g.port ++ ")/" ++
        g.dbName ++ "?charset=utf8mb4&parseTime=" ++ fmtBool true ++ "&loc=" ++ "Local"))
  else none

/-- Calls made on the connection pool `sqlDB`. -/
inductive PoolCall where
  | SetMaxOpenConns (n : Int)
  | SetMaxIdleConns (n : Int)
  | SetConnMaxLifetime (d : time.Duration)
  deriving DecidableEq, Repr

/-- The client returned by `gormDial`: the configuration given to `gorm.Open`,
the calls made on its pool, in order, and the calls of `Register` made, in
order (operation, anchor, name). -/
structure DB where
  dial : Option Dialector
  PrepareStmt : Bool
  SingularTable : Bool
  poolCalls : List PoolCall
  registerCalls : List (String × String × String)
  deriving DecidableEq, Repr

/-- Outcomes of the calls that leave the repository: whether the file-sink
construction of the logger panics, the error of `gorm.Open` and the error of
`db.DB()` (`none` is a nil error). -/
structure Env where
  filePanics : Bool
  openErr : Option String
  dbErr : Option String
  deriving DecidableEq, Repr

/-- The loop over `optFunc` in `InitGorm`. -/
def applyOptions (optFunc : List (Option OptionFunc)) (opt : option) : option :=
  optFunc.foldl (fun o f => match f with
    | some g => g o
    | none => o) opt

/-- Option-merge step of `InitGorm`: the loop over `optFunc` followed by the
two default substitutions. -/
def mergeOptions (optFunc : List (Option OptionFunc)) : option :=
  let opt := applyOptions optFunc option.zero
  let opt1 :=
    if opt.ConnMaxLifeSecond = 0 then { opt with ConnMaxLifeSecond := DefaultConnMaxLifeSecond }
    else opt
  if opt1.MaxIdleConn = 0 then { opt1 with MaxIdleConn := DefaultMaxIdleConn } else opt1

/-- Pool configuration of `gormDial`: the three guarded calls on `sqlDB`. -/
def poolSetup (o : option) : List PoolCall :=
  (if o.MaxOpenConn > 0 then [PoolCall.SetMaxOpenConns o.MaxOpenConn]
    else [PoolCall.SetMaxOpenConns DefaultMaxOpenConn]) ++
  (if o.MaxIdleConn > 0 then [PoolCall.SetMaxIdleConns o.MaxIdleConn] else []) ++
  (if o.ConnMaxLifeSecond > 0 then
      [PoolCall.SetConnMaxLifetime (time.mul time.Second o.ConnMaxLifeSecond)]
    else [])

/-- Method `gormStruct.gormDial`.  The session returned by
`db.Set("gorm:table_options", ...)` is discarded, so the returned client
carries no table option.  Each of the four `Register` calls is made whatever
the previous one returned: an error is only passed to `logx.Errorf`, whose
output is not part of the state, and whether a failed call leaves its hook in
place is decided inside gorm and not recorded here. -/
def gormDial (env : Env) (g : gormStruct) (dial : Option Dialector) (o : option) :
    Except String DB :=
  match env.openErr with
  | some err => Except.error (err ++ ", [db connection failed] Database name: " ++ g.dbName)
  | none =>
    match env.dbErr with
    | some err => Except.error err
    | none =>
      Except.ok
        { dial := dial,
          PrepareStmt := o.PrepareStmt,
          SingularTable := true,
          poolCalls := poolSetup o,
          registerCalls :=
            [("create", "gorm:after_create", DefaultLogName),
             ("query", "gorm:after_query", DefaultLogName),
             ("update", "gorm:after_update", DefaultLogName),
             ("delete", "gorm:after_delete", DefaultLogName)] }

/-- Package state seen by `InitGorm`: the state of `logx`, the variable
`Client`, and the value given to `logx.Panic` when the call ended that way. -/
structure World where
  logState : logx.State
  Client : Option DB
  panicked : Option String
  deriving DecidableEq, Repr

/-- Package state at process start. -/
def World.init : World := { logState := logx.State.init, Client := none, panicked := none }

/-- Function `InitGorm`. -/
def InitGorm (env : Env) (dbType user pass host port dbName : String)
    (optFunc : List (Option OptionFunc)) (w : World) : World :=
  let ls := logx.NewLoggerOption env.filePanics [] w.logState
  let opt := mergeOptions optFunc
  let gs : gormStruct :=
    { dbType := dbType, username := user, password := pass, host := host, port := port,
      dbName := dbName }
  let dsn := BuildDSN gs
  match gormDial env gs dsn opt with
  | Except.error err => { w with logState := ls, panicked := some err }
  | Except.ok db => { w with logState := ls, Client := some db }

/-- The ways a caller writes one entry of the option list of `InitGorm`. -/
inductive Opt where
  | maxOpenConn (n : Int)
  | maxIdleConn (n : Int)
  | maxLifeSecond (d : time.Duration)
  | logName (s : String)
  | nil
  deriving DecidableEq, Repr

/-- The option value an entry denotes. -/
def Opt.toFunc : Opt → Option OptionFunc
  | .maxOpenConn n => some (WithMaxOpenConn n)
  | .maxIdleConn n => some (WithMaxIdleConn n)
  | .maxLifeSecond d => some (WithMaxLifeSecond d)
  | .logName s => some (WithLogName s)
  | .nil => none

/-- The value an entry sets the open-connection count to, if it targets it. -/
def Opt.openVal : Opt → Option Int
  | .maxOpenConn n => some n
  | _ => none

/-- The value an entry sets the idle-connection count to, if it targets it. -/
def Opt.idleVal : Opt → Option Int
  | .maxIdleConn n => some n
  | _ => none

/-- The value an entry sets the connection lifetime to, if it targets it. -/
def Opt.lifeVal : Opt → Option time.Duration
  | .maxLifeSecond d => some d
  | _ => none

end gormx

/-! ## redisx -/

namespace redisx

/-- Record `options`. -/
structure options where
  DialTimeout : time.Duration
  ReadTimeout : time.Duration
  WriteTimeout : time.Duration
  PoolSize : Int
  PoolTimeout : time.Duration
  IdleTimeout : time.Duration
  deriving DecidableEq, Repr

/-- Zero value `&options{}`. -/
def options.zero : options :=
  { DialTimeout := 0, ReadTimeout := 0, WriteTimeout := 0, PoolSize := 0, PoolTimeout := 0,
    IdleTimeout := 0 }

/-- Type `OptionFunc func(opt *options)`; a nil function is `none` in an
option list. -/
abbrev OptionFunc := options → options

def WithDialTimeout (t : time.Duration) : OptionFunc := fun opt => { opt with DialTimeout := t }

def WithReadTimeout (t : time.Duration) : OptionFunc := fun opt => { opt with ReadTimeout := t }

def WithWriteTimeout (t : time.Duration) : OptionFunc :=
  fun opt => { opt with WriteTimeout := t }

def WithPoolSize (size : Int) : OptionFunc := fun opt => { opt with PoolSize := size }

def WithPoolTimeout (t : time.Duration) : OptionFunc := fun opt => { opt with PoolTimeout := t }

def WithIdleTimeout (t : time.Duration) : OptionFunc := fun opt => { opt with IdleTimeout := t }

/-- The fields of `redis.Options` that `InitRedis` fills in. -/
structure RedisOptions where
  Addr : String
  Password : String
  DB : Int
  DialTimeout : time.Duration
  ReadTimeout : time.Duration
  WriteTimeout : time.Duration
  PoolSize : Int
  PoolTimeout : time.Duration
  IdleTimeout : time.Duration
  deriving DecidableEq, Repr

/-- The loop over `option` in `InitRedis`. -/
def applyOptions (option : List (Option OptionFunc)) (opts : options) : options :=
  option.foldl (fun o f => match f with
    | some g => g o
    | none => o) opts

/-- Function `InitRedis`: the value handed to `redis.NewClient`, which is what
the variable `Client` is built from. -/
def InitRedis (addr pass : String) (db : Int) (option : List (Option OptionFunc)) :
    RedisOptions :=
  let opts := applyOptions option options.zero
  { Addr := addr,
    Password := pass,
    DB := db,
    DialTimeout := opts.DialTimeout,
    ReadTimeout := opts.ReadTimeout,
    WriteTimeout := opts.WriteTimeout,
    PoolSize := opts.PoolSize,
    PoolTimeout := opts.PoolTimeout,
    IdleTimeout := opts.IdleTimeout }

/-- The six fields an option can target. -/
inductive Field where
  | DialTimeout
  | ReadTimeout
  | WriteTimeout
  | PoolSize
  | PoolTimeout
  | IdleTimeout
  deriving DecidableEq, Repr

/-- The ways a caller writes one entry of the option list of `InitRedis`: a
call of one of the six constructors, given by its field and value, or nil. -/
inductive Opt where
  | set (f : Field) (v : Int)
  | nil
  deriving DecidableEq, Repr

/-- The option value an entry denotes. -/
def Opt.toFunc : Opt → Option OptionFunc
  | .set .DialTimeout v => some (WithDialTimeout v)
  | .set .ReadTimeout v => some (WithReadTimeout v)
  | .set .WriteTimeout v => some (WithWriteTimeout v)
  | .set .PoolSize v => some (WithPoolSize v)
  | .set .PoolTimeout v => some (WithPoolTimeout v)
  | .set .IdleTimeout v => some (WithIdleTimeout v)
  | .nil => none

/-- The value an entry sets field `f` to, if it targets `f`. -/
def Opt.valFor (f : Field) : Opt → Option Int
  | .set g v => if g = f then some v else none
  | .nil => none

/-- Value of the last entry of the list that targets field `f`, zero when no
entry does. -/
def lastFor (f : Field) (l : List Opt) : Int := lastSet (Opt.valFor f) 0 l

/-- The field an entry targets. -/
def Opt.target : Opt → Option Field
  | .set f _ => some f
  | .nil => none

/-- Value of field `f` of an `options` record. -/
def options.get (opts : options) : Field → Int
  | .DialTimeout => opts.DialTimeout
  | .ReadTimeout => opts.ReadTimeout
  | .WriteTimeout => opts.WriteTimeout
  | .PoolSize => opts.PoolSize
  | .PoolTimeout => opts.PoolTimeout
  | .IdleTimeout => opts.IdleTimeout

end redisx

/-! ## Theorems: shared lemmas -/

theorem lastSet_nil {α β : Type} (sel : α → Option β) (d : β) : lastSet sel d [] = d := rfl

theorem lastSet_cons {α β : Type} (sel : α → Option β) (d : β) (o : α) (l : List α) :
    lastSet sel d (o :: l) = lastSet sel ((sel o).getD d) l := by
  unfold lastSet
  cases h : sel o with
  | none => simp [List.filterMap_cons, h]
  | some v =>
    simp only [List.filterMap_cons, h, Option.getD_some]
    cases List.filterMap sel l with
    | nil => simp
    | cons x xs =>
      rw [List.getLast?_cons_cons, List.getLast?_eq_getLast (x :: xs) (List.cons_ne_nil x xs)]
      rfl

theorem lastSet_of_none {α β : Type} (sel : α → Option β) (d : β) (l : List α)
    (h : ∀ o ∈ l, sel o = none) : lastSet sel d l = d := by
  induction l with
  | nil => rfl
  | cons o l ih =>
    rw [lastSet_cons, h o (List.mem_cons_self o l)]
    exact ih (fun x hx => h x (List.mem_cons_of_mem o hx))

/-! ## Theorems: path -/

namespace path

theorem splitSlash_ne_nil (xs : List Char) : splitSlash xs ≠ [] := by
  cases xs with
  | nil => simp [splitSlash]
  | cons c cs =>
    unfold splitSlash
    cases h : splitSlash cs with
    | nil => simp
    | cons e es => by_cases hc : c = '/' <;> simp [hc]

theorem splitSlash_no_slash (e : List Char) (h : '/' ∉ e) : splitSlash e = [e] := by
  induction e with
  | nil => rfl
  | cons c cs ih =>
    have hc : c ≠ '/' := fun hc => h (by simp [hc])
    have hcs : '/' ∉ cs := fun hm => h (List.mem_cons_of_mem c hm)
    unfold splitSlash
    rw [ih hcs]
    simp [hc]

theorem splitSlash_append_slash (xs ys : List Char) :
    splitSlash (xs ++ '/' :: ys) = splitSlash xs ++ splitSlash ys := by
  induction xs with
  | nil =>
    show splitSlash ('/' :: ys) = splitSlash [] ++ splitSlash ys
    simp only [splitSlash]
    cases h : splitSlash ys with
    | nil => exact absurd h (splitSlash_ne_nil ys)
    | cons e es => simp
  | cons c cs ih =>
    show splitSlash (c :: (cs ++ '/' :: ys)) = splitSlash (c :: cs) ++ splitSlash ys
    rw [splitSlash, ih, splitSlash]
    cases h : splitSlash cs with
    | nil => exact absurd h (splitSlash_ne_nil cs)
    | cons e es => by_cases hc : c = '/' <;> simp [hc]

/-- Appending a slash and one slash-free element to a non-empty path runs one
more iteration of the loop of `path.Clean`. -/
theorem cleanState_append_elem (d e : List Char) (hd : d ≠ []) (he : '/' ∉ e) :
    cleanState (d ++ '/' :: e) =
      cleanStep (decide (d.head? = some '/')) (cleanState d) e := by
  cases d with
  | nil => exact absurd rfl hd
  | cons c cs =>
    unfold cleanState
    by_cases hc : c = '/'
    · subst hc
      simp [splitSlash_append_slash, splitSlash_no_slash e he, List.foldl_append]
    · simp only [List.cons_append, List.head?_cons, Option.some.injEq, hc, decide_False,
        Bool.false_eq_true, if_false]
      rw [← List.cons_append, splitSlash_append_slash, splitSlash_no_slash e he,
        List.foldl_append]
      rfl

/-- A clean path other than the dot and the root stays as it is when a slash
and one ordinary element are appended. -/
theorem Clean_append_elem (p t : String) (hp : p ≠ "") (hclean : Clean p = p)
    (hdot : p ≠ ".") (hroot : p ≠ "/") (ht : '/' ∉ t.data) (ht0 : t.data ≠ [])
    (ht1 : t.data ≠ ['.']) (ht2 : t.data ≠ ['.', '.']) :
    Clean (p ++ "/" ++ t) = p ++ "/" ++ t := by
  have hpd : p.data ≠ [] := by
    intro h0
    apply hp
    cases p with
    | mk d => simp only at h0; subst h0; rfl
  have hout : (cleanState p.data).1 = p.data := by
    unfold Clean at hclean
    rw [if_neg hp] at hclean
    by_cases hlen : (cleanState p.data).1.length = 0
    · simp only [hlen, if_true] at hclean
      exact absurd hclean.symm hdot
    · simp only [hlen, if_false] at hclean
      exact congrArg String.data hclean
  have hqd : (p ++ "/" ++ t).data = p.data ++ '/' :: t.data := by
    simp [String.data_append]
  have hq : p ++ "/" ++ t ≠ "" := by
    intro h0
    have := congrArg String.data h0
    rw [hqd] at this
    simp at this
  have hcond : (decide (p.data.head? = some '/') = true ∧ p.data.length ≠ 1) ∨
      (decide (p.data.head? = some '/') = false ∧ p.data.length ≠ 0) := by
    by_cases hr : p.data.head? = some '/'
    · left
      refine ⟨by simp [hr], ?_⟩
      intro h1
      apply hroot
      cases p with
      | mk d =>
        cases d with
        | nil => simp at h1
        | cons c cs =>
          cases cs with
          | nil =>
            simp only [List.head?_cons, Option.some.injEq] at hr
            subst hr; rfl
          | cons c2 cs2 => simp at h1
    · right
      refine ⟨by simp [hr], ?_⟩
      intro h0
      exact hpd (List.length_eq_zero.mp h0)
  unfold Clean
  rw [if_neg hq, hqd, cleanState_append_elem p.data t.data hpd ht]
  simp only [cleanStep, if_neg ht0, if_neg ht1, if_neg ht2, hout, if_pos hcond]
  have hne : ¬ (p.data ++ ['/'] ++ t.data).length = 0 := by simp
  rw [if_neg hne]
  apply String.ext
  rw [hqd]
  simp


end path

/-! ## Theorems: logx -/

namespace logx

open zapcore

theorem getLoggerLevel_eq_specLevel (l : String) : getLoggerLevel l = specLevel l := by
  unfold getLoggerLevel specLevel levelMap
  simp only [List.lookup]
  by_cases h1 : l = "debug"
  · subst h1; rfl
  by_cases h2 : l = "info"
  · subst h2; rfl
  by_cases h3 : l = "warn"
  · subst h3; rfl
  by_cases h4 : l = "error"
  · subst h4; rfl
  by_cases h5 : l = "dpanic"
  · subst h5; rfl
  by_cases h6 : l = "panic"
  · subst h6; rfl
  by_cases h7 : l = "fatal"
  · subst h7; rfl
  have e1 : (l == "debug") = false := by simpa using h1
  have e2 : (l == "info") = false := by simpa using h2
  have e3 : (l == "warn") = false := by simpa using h3
  have e4 : (l == "error") = false := by simpa using h4
  have e5 : (l == "dpanic") = false := by simpa using h5
  have e6 : (l == "panic") = false := by simpa using h6
  have e7 : (l == "fatal") = false := by simpa using h7
  simp only [e1, e2, e3, e4, e5, e6, e7, if_neg h1, if_neg h2, if_neg h3, if_neg h4, if_neg h5,
    if_neg h6, if_neg h7]

theorem applyOptions_nil (conf : loggerConf) : applyOptions [] conf = conf := rfl

theorem applyOptions_cons (f : Option OptionFunc) (opt : List (Option OptionFunc))
    (conf : loggerConf) :
    applyOptions (f :: opt) conf =
      applyOptions opt (match f with
        | some g => g conf
        | none => conf) := rfl

theorem applyOptions_append (xs ys : List (Option OptionFunc)) (conf : loggerConf) :
    applyOptions (xs ++ ys) conf = applyOptions ys (applyOptions xs conf) := by
  simp [applyOptions, List.foldl_append]

/-- Once `setupOnce` is done, a call only reassigns `fileName`. -/
theorem NewLoggerOption_of_done (p : Bool) (opt : List (Option OptionFunc)) (st : State)
    (h : st.setupOnce = true) :
    NewLoggerOption p opt st =
      { st with fileName := path.Join [(applyOptions opt loggerConf.zero).LogPath,
          (applyOptions opt loggerConf.zero).ServerName ++ ".log"] } := by
  simp [NewLoggerOption, onceDo, h]

theorem NewLoggerOption_setupOnce (p : Bool) (opt : List (Option OptionFunc)) (st : State) :
    (NewLoggerOption p opt st).setupOnce = true := by
  unfold NewLoggerOption onceDo
  by_cases h : st.setupOnce = true <;> simp [h]

theorem runCalls_of_done (calls : List (Bool × List (Option OptionFunc))) (st : State)
    (h : st.setupOnce = true) :
    (runCalls calls st).log = st.log ∧ (runCalls calls st).coresBuilt = st.coresBuilt ∧
      (runCalls calls st).setupOnce = true := by
  induction calls generalizing st with
  | nil => exact ⟨rfl, rfl, h⟩
  | cons c cs ih =>
    have hd := NewLoggerOption_of_done c.1 c.2 st h
    have hs := NewLoggerOption_setupOnce c.1 c.2 st
    have := ih (NewLoggerOption c.1 c.2 st) hs
    simp only [runCalls, List.foldl_cons] at this ⊢
    rw [this.1, this.2.1, this.2.2, hd]
    exact ⟨rfl, rfl, rfl⟩

/-- First call from the start state when the sink construction completes. -/
theorem NewLoggerOption_init (p : Bool) (opt : List (Option OptionFunc))
    (h : p = false ∨ (applyOptions opt loggerConf.zero).Mode ≠ "file") :
    (NewLoggerOption p opt State.init).log =
      some
        { syncWriters :=
            [if (applyOptions opt loggerConf.zero).Mode = "file" then
               WriteSyncer.lumberjack
                 (path.Join
                   [(if (applyOptions opt loggerConf.zero).LogPath = "" then "./log"
                      else (applyOptions opt loggerConf.zero).LogPath),
                    (if (applyOptions opt loggerConf.zero).ServerName = "" then "log"
                      else (applyOptions opt loggerConf.zero).ServerName) ++ ".log"])
                 (applyOptions opt loggerConf.zero).MaxSize
                 (applyOptions opt loggerConf.zero).MaxDay
                 (applyOptions opt loggerConf.zero).MaxBackups
                 (applyOptions opt loggerConf.zero).Compress
             else WriteSyncer.stdout],
          level := getLoggerLevel (applyOptions opt loggerConf.zero).Level } ∧
    (NewLoggerOption p opt State.init).coresBuilt = 1 := by
  simp only [NewLoggerOption, onceDo, State.init]
  revert h
  generalize applyOptions opt loggerConf.zero = conf
  intro h
  by_cases hm : conf.Mode = "file"
  · have hp0 : p = false := by
      rcases h with h | h
      · exact h
      · exact absurd hm h
    subst hp0
    by_cases hp : conf.LogPath = "" <;> by_cases hn : conf.ServerName = "" <;>
      simp [setup, buildCore, hm, hp, hn]
  · simp [setup, buildCore, hm]

/-- First call from the start state when the file-sink construction panics. -/
theorem NewLoggerOption_init_panic (opt : List (Option OptionFunc))
    (h : (applyOptions opt loggerConf.zero).Mode = "file") :
    (NewLoggerOption true opt State.init).log = none ∧
    (NewLoggerOption true opt State.init).coresBuilt = 0 := by
  simp only [NewLoggerOption, onceDo, State.init]
  revert h
  generalize applyOptions opt loggerConf.zero = conf
  intro h
  simp [setup, h]

theorem coresBuilt_first_le_one (p : Bool) (opt : List (Option OptionFunc)) :
    (NewLoggerOption p opt State.init).coresBuilt ≤ 1 := by
  by_cases h : p = false ∨ (applyOptions opt loggerConf.zero).Mode ≠ "file"
  · exact le_of_eq (NewLoggerOption_init p opt h).2
  · have hp : p = true := by
      cases p
      · exact absurd (Or.inl rfl) h
      · rfl
    have hm : (applyOptions opt loggerConf.zero).Mode = "file" := by
      by_contra hc
      exact h (Or.inr hc)
    subst hp
    rw [(NewLoggerOption_init_panic opt hm).2]
    exact Nat.zero_le 1

/-- Options that are not calls of `WithLevel` leave the level name as it is. -/
theorem applyOptions_Level_of_no_level (u : Char → Char) (l : List Opt)
    (h : ∀ o ∈ l, o.isLevel = false) (conf : loggerConf) :
    (applyOptions (l.map (Opt.toFunc u)) conf).Level = conf.Level := by
  induction l generalizing conf with
  | nil => rfl
  | cons o l ih =>
    have ho := h o (List.mem_cons_self o l)
    have hl : ∀ x ∈ l, x.isLevel = false := fun x hx => h x (List.mem_cons_of_mem o hx)
    rw [List.map_cons, applyOptions_cons, ih hl]
    cases o <;> first | rfl | simp [Opt.isLevel] at ho

/-- The rotation fields after a list of rotation options. -/
theorem applyOptions_rotation (u : Char → Char) (l : List Opt)
    (h : ∀ o ∈ l, o.isRotation = true) (conf : loggerConf) :
    applyOptions (l.map (Opt.toFunc u)) conf =
      { conf with
        MaxSize := lastSet Opt.sizeVal conf.MaxSize l,
        MaxDay := lastSet Opt.dayVal conf.MaxDay l,
        MaxBackups := lastSet Opt.backupsVal conf.MaxBackups l,
        Compress := lastSet Opt.compressVal conf.Compress l } := by
  induction l generalizing conf with
  | nil => rfl
  | cons o l ih =>
    have ho := h o (List.mem_cons_self o l)
    have hl : ∀ x ∈ l, x.isRotation = true := fun x hx => h x (List.mem_cons_of_mem o hx)
    rw [List.map_cons, applyOptions_cons, ih hl]
    simp only [lastSet_cons]
    cases o <;> first | rfl | simp [Opt.isRotation] at ho

/-- C1: for every non-empty sequence of calls of NewLoggerOption from process
start (any option lists, any behaviour of the file-sink construction), the
logger in effect after the whole sequence is the logger in effect after the
first call, the number of cores built is that of the first call and at most
one; when the first call's sink construction completes, exactly one core has
been built and a logger is in effect.  The same holds when the first call is
the option-less one made inside InitGorm: the logger stays the console logger
at info severity whatever the later calls ask for. -/
theorem C1_first_call_fixes_logger (p : Bool) (opt : List (Option OptionFunc))
    (rest : List (Bool × List (Option OptionFunc)))
    (env : gormx.Env) (dbType user pass host port dbName : String)
    (optFunc : List (Option gormx.OptionFunc)) :
    (runCalls ((p, opt) :: rest) State.init).log = (NewLoggerOption p opt State.init).log ∧
    (runCalls ((p, opt) :: rest) State.init).coresBuilt =
      (NewLoggerOption p opt State.init).coresBuilt ∧
    (runCalls ((p, opt) :: rest) State.init).coresBuilt ≤ 1 ∧
    ((p = false ∨ (applyOptions opt loggerConf.zero).Mode ≠ "file") →
      (runCalls ((p, opt) :: rest) State.init).coresBuilt = 1 ∧
      (runCalls ((p, opt) :: rest) State.init).log.isSome = true) ∧
    (runCalls rest
        (gormx.InitGorm env dbType user pass host port dbName optFunc
          gormx.World.init).logState).log =
      some { syncWriters := [WriteSyncer.stdout], level := InfoLevel } ∧
    (runCalls rest
        (gormx.InitGorm env dbType user pass host port dbName optFunc
          gormx.World.init).logState).coresBuilt = 1 := by
  have hrun : runCalls ((p, opt) :: rest) State.init =
      runCalls rest (NewLoggerOption p opt State.init) := rfl
  have hkeep := runCalls_of_done rest (NewLoggerOption p opt State.init)
    (NewLoggerOption_setupOnce p opt State.init)
  have hg : (gormx.InitGorm env dbType user pass host port dbName optFunc
      gormx.World.init).logState = NewLoggerOption env.filePanics [] State.init := by
    simp only [gormx.InitGorm]
    split <;> rfl
  have hkeepg := runCalls_of_done rest (NewLoggerOption env.filePanics [] State.init)
    (NewLoggerOption_setupOnce env.filePanics [] State.init)
  have hinitg := NewLoggerOption_init env.filePanics []
    (Or.inr (by simp [applyOptions, loggerConf.zero]))
  refine ⟨?_, ?_, ?_, ?_, ?_, ?_⟩
  · rw [hrun]; exact hkeep.1
  · rw [hrun]; exact hkeep.2.1
  · rw [hrun, hkeep.2.1]; exact coresBuilt_first_le_one p opt
  · intro h
    have hinit := NewLoggerOption_init p opt h
    rw [hrun, hkeep.2.1, hkeep.1, hinit.2, hinit.1]
    exact ⟨rfl, rfl⟩
  · rw [hg, hkeepg.1, hinitg.1]
    simp [applyOptions, loggerConf.zero, getLoggerLevel, levelMap, List.lookup]
  · rw [hg, hkeepg.2.1, hinitg.2]

/-- Witness of C1: a file-mode first call followed by a console call at debug
level and a nil-option call. -/
theorem C1_first_call_fixes_logger_witness :
    (runCalls
        [(false, [some (WithMode "file")]), (false, [some (WithLevel id "debug")]),
         (true, [none])]
        State.init).coresBuilt = 1 ∧
    (runCalls
        [(false, [some (WithMode "file")]), (false, [some (WithLevel id "debug")]),
         (true, [none])]
        State.init).log.isSome = true :=
  (C1_first_call_fixes_logger false [some (WithMode "file")]
      [(false, [some (WithLevel id "debug")]), (true, [none])]
      ⟨false, none, none⟩ "mysql" "root" "123456" "127.0.0.1" "3306" "test" []).2.2.2.1
    (Or.inl rfl)

/-- On a string of ASCII characters `strings.ToLower` does not consult the
Unicode case table. -/
theorem ToLower_ascii (u : Char → Char) (s : String)
    (h : s.data.all (fun c => decide (c.toNat < 128)) = true) :
    strings.ToLower u s = String.mk (s.data.map strings.asciiLower) := by
  unfold strings.ToLower
  rw [if_pos h]

theorem severity_first (p : Bool) (opt : List (Option OptionFunc))
    (h : p = false ∨ (applyOptions opt loggerConf.zero).Mode ≠ "file") :
    severity (NewLoggerOption p opt State.init) =
      some (specLevel (applyOptions opt loggerConf.zero).Level) := by
  unfold severity
  rw [(NewLoggerOption_init p opt h).1, getLoggerLevel_eq_specLevel]
  rfl

theorem severity_WithLevel (u : Char → Char) (p : Bool) (s : String) :
    severity (NewLoggerOption p [some (WithLevel u s)] State.init) =
      some (specLevel (strings.ToLower u s)) := by
  rw [severity_first p _ (Or.inr (by simp [applyOptions, loggerConf.zero, WithLevel]))]
  rfl

/-- C2: a logger first built by NewLoggerOption(WithLevel(s)) has the
severity that the level table gives the lower-cased s (the seven names with
their levelMap ranks, info for any other name); with no WithLevel option in
the list the severity is info; two strings with the same lower-casing give the
same severity, as DEBUG and debug do. -/
theorem C2_severity_of_level_name (u : Char → Char) (p : Bool) (s : String) :
    severity (NewLoggerOption p [some (WithLevel u s)] State.init) =
      some (specLevel (strings.ToLower u s)) ∧
    (∀ e ∈ levelMap, specLevel e.1 = e.2) ∧
    (∀ l : List Opt, (∀ o ∈ l, o.isLevel = false) →
      severity (NewLoggerOption false (l.map (Opt.toFunc u)) State.init) = some InfoLevel) ∧
    (∀ s2 : String, strings.ToLower u s2 = strings.ToLower u s →
      severity (NewLoggerOption p [some (WithLevel u s2)] State.init) =
        severity (NewLoggerOption p [some (WithLevel u s)] State.init)) ∧
    severity (NewLoggerOption p [some (WithLevel u "DEBUG")] State.init) = some DebugLevel ∧
    severity (NewLoggerOption p [some (WithLevel u "debug")] State.init) = some DebugLevel := by
  refine ⟨severity_WithLevel u p s, by decide, ?_, ?_, ?_, ?_⟩
  · intro l hl
    rw [severity_first false _ (Or.inl rfl), applyOptions_Level_of_no_level u l hl]
    rfl
  · intro s2 h2
    rw [severity_WithLevel, severity_WithLevel, h2]
  · rw [severity_WithLevel]
    rw [ToLower_ascii u "DEBUG" (by decide)]
    decide
  · rw [severity_WithLevel]
    rw [ToLower_ascii u "debug" (by decide)]
    decide

/-- Witness of C2: an option list without WithLevel, and the pair WARN, Warn. -/
theorem C2_severity_of_level_name_witness :
    severity
        (NewLoggerOption false
          ([Opt.mode "file", Opt.nil, Opt.maxSize 5].map (Opt.toFunc id)) State.init) =
      some InfoLevel ∧
    severity (NewLoggerOption false [some (WithLevel id "Warn")] State.init) =
      severity (NewLoggerOption false [some (WithLevel id "WARN")] State.init) :=
  ⟨(C2_severity_of_level_name id false "WARN").2.2.1 [Opt.mode "file", Opt.nil, Opt.maxSize 5]
      (by decide),
   (C2_severity_of_level_name id false "WARN").2.2.2.1 "Warn" (by decide)⟩

/-- C3: the logger built by the first call has exactly one sink; it is the
rotating file sink if and only if the final Mode is exactly the string file.
For every other Mode the single sink is the console, whatever the file-sink
construction would do; this covers the empty Mode of an empty option list and
the spelling File. -/
theorem C3_sink_chosen_by_mode (opt : List (Option OptionFunc)) (p : Bool) :
    (∃ w lvl,
      (NewLoggerOption false opt State.init).log = some { syncWriters := [w], level := lvl } ∧
      (isFileSink w = true ↔ (applyOptions opt loggerConf.zero).Mode = "file")) ∧
    ((applyOptions opt loggerConf.zero).Mode ≠ "file" →
      ∃ lvl, (NewLoggerOption p opt State.init).log =
        some { syncWriters := [WriteSyncer.stdout], level := lvl }) ∧
    (NewLoggerOption p [] State.init).log =
      some { syncWriters := [WriteSyncer.stdout], level := InfoLevel } ∧
    (NewLoggerOption p [some (WithMode "File")] State.init).log =
      some { syncWriters := [WriteSyncer.stdout], level := InfoLevel } := by
  refine ⟨?_, ?_, ?_, ?_⟩
  · refine ⟨_, _, (NewLoggerOption_init false opt (Or.inl rfl)).1, ?_⟩
    by_cases hm : (applyOptions opt loggerConf.zero).Mode = "file"
    · simp [hm, isFileSink]
    · simp [hm, isFileSink]
  · intro hm
    refine ⟨getLoggerLevel (applyOptions opt loggerConf.zero).Level, ?_⟩
    rw [(NewLoggerOption_init p opt (Or.inr hm)).1, if_neg hm]
  · rw [(NewLoggerOption_init p [] (Or.inr (by simp [applyOptions, loggerConf.zero]))).1]
    simp [applyOptions, loggerConf.zero, getLoggerLevel, levelMap, List.lookup]
  · rw [(NewLoggerOption_init p [some (WithMode "File")]
        (Or.inr (by simp [applyOptions, loggerConf.zero, WithMode]))).1]
    simp [applyOptions, loggerConf.zero, getLoggerLevel, levelMap, List.lookup, WithMode]

/-- Witness of C3: Mode console with a panicking file-sink construction. -/
theorem C3_sink_chosen_by_mode_witness :
    ∃ lvl, (NewLoggerOption true [some (WithMode "console")] State.init).log =
      some { syncWriters := [WriteSyncer.stdout], level := lvl } :=
  (C3_sink_chosen_by_mode [some (WithMode "console")] true).2.1
    (by simp [applyOptions, loggerConf.zero, WithMode])

theorem Join_pair (a b : String) (ha : a ≠ "") :
    path.Join [a, b] = path.Clean (a ++ "/" ++ b) := by
  have hlen : a.length ≠ 0 := by
    intro h0
    apply ha
    cases a with
    | mk d =>
      have : d = [] := List.length_eq_zero.mp h0
      subst this; rfl
  have h1 : ¬ ([a, b].map String.length).sum = 0 := by
    simp only [List.map_cons, List.map_nil, List.sum_cons, List.sum_nil]
    omega
  unfold path.Join
  rw [if_neg h1]
  simp [path.joinBuf, ha]

/-- C9 (counterexample): with log path ./logs and service name svc the file
sink is named logs/svc.log, which is not the concatenation ./logs/svc.log. -/
theorem C9_filename_not_concatenation :
    (NewLoggerOption false
        [some (WithMode "file"), some (WithLogPath "./logs"), some (WithServerName "svc")]
        State.init).log =
      some { syncWriters := [WriteSyncer.lumberjack "logs/svc.log" 0 0 0 false],
             level := InfoLevel } ∧
    (NewLoggerOption false
        [some (WithMode "file"), some (WithLogPath "./logs"), some (WithServerName "svc")]
        State.init).log ≠
      some { syncWriters :=
               [WriteSyncer.lumberjack ("./logs" ++ "/" ++ "svc" ++ ".log") 0 0 0 false],
             level := InfoLevel } := by
  decide

/-- C9 (amended): for non-empty log path p and service name s, a first call
NewLoggerOption(WithMode(file), WithLogPath(p), WithServerName(s)) followed by
any rotation options builds one rotating file sink whose file name is
path.Join(p, s + .log), that is path.Clean of p + / + s + .log, and whose
MaxSize, MaxAge, MaxBackups and Compress are the last values given by
WithMaxSize, WithMaxDay, WithBackups and WithCompress (0 and false when not
given).  The file name is the plain concatenation p + / + s + .log whenever p
is already clean, is neither the dot nor the root, and s has no slash. -/
theorem C9_file_sink_configuration (u : Char → Char) (p s : String) (extras : List Opt)
    (hp : p ≠ "") (hs : s ≠ "") (hx : ∀ o ∈ extras, o.isRotation = true) :
    (NewLoggerOption false
        ([some (WithMode "file"), some (WithLogPath p), some (WithServerName s)] ++
          extras.map (Opt.toFunc u))
        State.init).log =
      some
        { syncWriters :=
            [WriteSyncer.lumberjack (path.Join [p, s ++ ".log"])
              (lastSet Opt.sizeVal 0 extras) (lastSet Opt.dayVal 0 extras)
              (lastSet Opt.backupsVal 0 extras) (lastSet Opt.compressVal false extras)],
          level := InfoLevel } ∧
    path.Join [p, s ++ ".log"] = path.Clean (p ++ "/" ++ s ++ ".log") ∧
    (path.Clean p = p → p ≠ "." → p ≠ "/" → '/' ∉ s.data →
      path.Join [p, s ++ ".log"] = p ++ "/" ++ s ++ ".log") := by
  refine ⟨?_, ?_, ?_⟩
  · rw [(NewLoggerOption_init false _ (Or.inl rfl)).1, applyOptions_append,
      applyOptions_rotation u extras hx]
    simp [applyOptions, WithMode, WithLogPath, WithServerName, loggerConf.zero, hp, hs,
      getLoggerLevel, levelMap, List.lookup]
  · rw [Join_pair p (s ++ ".log") hp]
    simp only [String.append_assoc]
  · intro hclean hdot hroot hslash
    have hd : (s ++ ".log").data = s.data ++ ['.', 'l', 'o', 'g'] := by
      simp [String.data_append]
    have hlen : (s ++ ".log").data.length = s.data.length + 4 := by
      rw [hd]; simp
    have ht : '/' ∉ (s ++ ".log").data := by
      rw [hd]
      intro hm
      rcases List.mem_append.mp hm with h | h
      · exact hslash h
      · revert h; decide
    have ht0 : (s ++ ".log").data ≠ [] := by
      intro h; rw [h] at hlen; simp at hlen
    have ht1 : (s ++ ".log").data ≠ ['.'] := by
      intro h; rw [h] at hlen; simp at hlen
    have ht2 : (s ++ ".log").data ≠ ['.', '.'] := by
      intro h; rw [h] at hlen; simp at hlen
    rw [Join_pair p (s ++ ".log") hp,
      path.Clean_append_elem p (s ++ ".log") hp hclean hdot hroot ht ht0 ht1 ht2]
    simp only [String.append_assoc]

/-- Witness of C9: path /var/log, service svc, with two size limits and
compression; the file name is /var/log/svc.log. -/
theorem C9_file_sink_configuration_witness :
    (NewLoggerOption false
        ([some (WithMode "file"), some (WithLogPath "/var/log"), some (WithServerName "svc")] ++
          [Opt.maxSize 10, Opt.compress true, Opt.maxSize 20].map (Opt.toFunc id))
        State.init).log =
      some
        { syncWriters :=
            [WriteSyncer.lumberjack (path.Join ["/var/log", "svc" ++ ".log"])
              (lastSet Opt.sizeVal 0 [Opt.maxSize 10, Opt.compress true, Opt.maxSize 20])
              (lastSet Opt.dayVal 0 [Opt.maxSize 10, Opt.compress true, Opt.maxSize 20])
              (lastSet Opt.backupsVal 0 [Opt.maxSize 10, Opt.compress true, Opt.maxSize 20])
              (lastSet Opt.compressVal false
                [Opt.maxSize 10, Opt.compress true, Opt.maxSize 20])],
          level := InfoLevel } ∧
    path.Join ["/var/log", "svc" ++ ".log"] = "/var/log" ++ "/" ++ "svc" ++ ".log" :=
  ⟨(C9_file_sink_configuration id "/var/log" "svc"
      [Opt.maxSize 10, Opt.compress true, Opt.maxSize 20] (by decide) (by decide)
      (by decide)).1,
   (C9_file_sink_configuration id "/var/log" "svc"
      [Opt.maxSize 10, Opt.compress true, Opt.maxSize 20] (by decide) (by decide)
      (by decide)).2.2 (by decide) (by decide) (by decide) (by decide)⟩

/-- C10 (evaluation at the failing input): in file mode with no log path and
service name svc the file sink is named log/svc.log, in directory log; the
file the documented default directory logs would give is logs/svc.log. -/
theorem C10_default_directory_is_log :
    (NewLoggerOption false [some (WithMode "file"), some (WithServerName "svc")]
        State.init).log =
      some { syncWriters := [WriteSyncer.lumberjack "log/svc.log" 0 0 0 false],
             level := InfoLevel } ∧
    path.Join ["./logs", "svc" ++ ".log"] = "logs/svc.log" ∧
    path.Join ["logs", "svc" ++ ".log"] = "logs/svc.log" ∧
    (NewLoggerOption false [some (WithMode "file"), some (WithServerName "svc")]
        State.init).log ≠
      some { syncWriters := [WriteSyncer.lumberjack "logs/svc.log" 0 0 0 false],
             level := InfoLevel } := by
  decide

end logx

/-! ## Theorems: gormx -/

namespace gormx

theorem gorm_applyOptions_cons (f : Option OptionFunc) (l : List (Option OptionFunc)) (o : option) :
    applyOptions (f :: l) o =
      applyOptions l (match f with
        | some g => g o
        | none => o) := rfl

/-- The record after the option loop, field by field. -/
theorem gorm_applyOptions_fields (l : List Opt) (o : option) :
    (applyOptions (l.map Opt.toFunc) o).MaxOpenConn = lastSet Opt.openVal o.MaxOpenConn l ∧
    (applyOptions (l.map Opt.toFunc) o).MaxIdleConn = lastSet Opt.idleVal o.MaxIdleConn l ∧
    (applyOptions (l.map Opt.toFunc) o).ConnMaxLifeSecond =
      lastSet Opt.lifeVal o.ConnMaxLifeSecond l := by
  induction l generalizing o with
  | nil => exact ⟨rfl, rfl, rfl⟩
  | cons x l ih =>
    rw [List.map_cons, gorm_applyOptions_cons]
    simp only [lastSet_cons]
    cases x <;> exact ih _

theorem mem_poolSetup_open (o : option) (n : Int) :
    PoolCall.SetMaxOpenConns n ∈ poolSetup o ↔
      n = (if o.MaxOpenConn > 0 then o.MaxOpenConn else 1000) := by
  unfold poolSetup
  by_cases h1 : o.MaxOpenConn > 0 <;> by_cases h2 : o.MaxIdleConn > 0 <;>
    by_cases h3 : o.ConnMaxLifeSecond > 0 <;>
    simp [h1, h2, h3, DefaultMaxOpenConn, eq_comm]

theorem mem_poolSetup_idle (o : option) (n : Int) :
    PoolCall.SetMaxIdleConns n ∈ poolSetup o ↔ (o.MaxIdleConn > 0 ∧ n = o.MaxIdleConn) := by
  unfold poolSetup
  by_cases h1 : o.MaxOpenConn > 0 <;> by_cases h2 : o.MaxIdleConn > 0 <;>
    by_cases h3 : o.ConnMaxLifeSecond > 0 <;>
    simp [h1, h2, h3, eq_comm]

/-- C5 (evaluation at the failing input): with no option, and with
WithMaxLifeSecond(0), the merged lifetime is the default of 30 minutes
(1800000000000 ns), and the dial step hands SetConnMaxLifetime the int64
product time.Second * 1800000000000, which wraps to -7780919223536058368 ns,
not 30 minutes. -/
theorem C5_default_lifetime_wraps :
    (mergeOptions []).ConnMaxLifeSecond = 1800000000000 ∧
    DefaultConnMaxLifeSecond = 1800000000000 ∧
    (InitGorm ⟨false, none, none⟩ "mysql" "root" "123456" "127.0.0.1" "3306" "test" []
        World.init).Client.map DB.poolCalls =
      some [PoolCall.SetMaxOpenConns 1000, PoolCall.SetMaxIdleConns 100,
            PoolCall.SetConnMaxLifetime (-7780919223536058368)] ∧
    (InitGorm ⟨false, none, none⟩ "mysql" "root" "123456" "127.0.0.1" "3306" "test"
        [some (WithMaxLifeSecond 0)] World.init).Client.map DB.poolCalls =
      some [PoolCall.SetMaxOpenConns 1000, PoolCall.SetMaxIdleConns 100,
            PoolCall.SetConnMaxLifetime (-7780919223536058368)] ∧
    PoolCall.SetConnMaxLifetime DefaultConnMaxLifeSecond ∉
      poolSetup (mergeOptions []) := by
  decide

/-- C6: for every list of gormx options, the option-merge step yields
MaxIdleConn = 100 when the idle count was never set or last set to 0 and the
last set value otherwise, and MaxOpenConn = the last set value (0 when unset);
when the dial step reaches the pool it calls SetMaxOpenConns with MaxOpenConn
when that is positive and with 1000 otherwise, and calls SetMaxIdleConns, with
MaxIdleConn, exactly when MaxIdleConn is positive. -/
theorem C6_pool_counts (l : List Opt) (env : Env) (g : gormStruct) (dial : Option Dialector)
    (hOpen : env.openErr = none) (hDB : env.dbErr = none) :
    (mergeOptions (l.map Opt.toFunc)).MaxIdleConn =
      (if lastSet Opt.idleVal 0 l = 0 then 100 else lastSet Opt.idleVal 0 l) ∧
    (mergeOptions (l.map Opt.toFunc)).MaxOpenConn = lastSet Opt.openVal 0 l ∧
    ∃ db, gormDial env g dial (mergeOptions (l.map Opt.toFunc)) = Except.ok db ∧
      (∀ n, PoolCall.SetMaxOpenConns n ∈ db.poolCalls ↔
        n = (if (mergeOptions (l.map Opt.toFunc)).MaxOpenConn > 0 then
               (mergeOptions (l.map Opt.toFunc)).MaxOpenConn
             else 1000)) ∧
      (∀ n, PoolCall.SetMaxIdleConns n ∈ db.poolCalls ↔
        ((mergeOptions (l.map Opt.toFunc)).MaxIdleConn > 0 ∧
          n = (mergeOptions (l.map Opt.toFunc)).MaxIdleConn)) := by
  have hf := gorm_applyOptions_fields l option.zero
  have hO : (applyOptions (l.map Opt.toFunc) option.zero).MaxOpenConn =
      lastSet Opt.openVal 0 l := hf.1
  have hI : (applyOptions (l.map Opt.toFunc) option.zero).MaxIdleConn =
      lastSet Opt.idleVal 0 l := hf.2.1
  refine ⟨?_, ?_, ?_⟩
  · rw [← hI]
    unfold mergeOptions
    generalize applyOptions (l.map Opt.toFunc) option.zero = o
    by_cases h1 : o.ConnMaxLifeSecond = 0 <;> by_cases h2 : o.MaxIdleConn = 0 <;>
      simp [h1, h2, DefaultMaxIdleConn]
  · rw [← hO]
    unfold mergeOptions
    generalize applyOptions (l.map Opt.toFunc) option.zero = o
    by_cases h1 : o.ConnMaxLifeSecond = 0 <;> by_cases h2 : o.MaxIdleConn = 0 <;>
      simp [h1, h2]
  · simp only [gormDial, hOpen, hDB]
    refine ⟨_, rfl, ?_, ?_⟩
    · intro n; exact mem_poolSetup_open _ n
    · intro n; exact mem_poolSetup_idle _ n

/-- Witness of C6: open count set to 0 then 50, idle count set to 7 then 0,
with a nil entry, dialled without errors: the merge step gives idle 100 and
open 50. -/
theorem C6_pool_counts_witness :
    (mergeOptions
        ([Opt.maxOpenConn 0, Opt.maxIdleConn 7, Opt.nil, Opt.maxOpenConn 50,
          Opt.maxIdleConn 0].map Opt.toFunc)).MaxIdleConn = 100 ∧
    (mergeOptions
        ([Opt.maxOpenConn 0, Opt.maxIdleConn 7, Opt.nil, Opt.maxOpenConn 50,
          Opt.maxIdleConn 0].map Opt.toFunc)).MaxOpenConn = 50 :=
  ⟨(C6_pool_counts
      [Opt.maxOpenConn 0, Opt.maxIdleConn 7, Opt.nil, Opt.maxOpenConn 50, Opt.maxIdleConn 0]
      ⟨false, none, none⟩ ⟨"mysql", "root", "123456", "127.0.0.1", "3306", "test"⟩ none
      rfl rfl).1,
   (C6_pool_counts
      [Opt.maxOpenConn 0, Opt.maxIdleConn 7, Opt.nil, Opt.maxOpenConn 50, Opt.maxIdleConn 0]
      ⟨false, none, none⟩ ⟨"mysql", "root", "123456", "127.0.0.1", "3306", "test"⟩ none
      rfl rfl).2.1⟩

/-- C7: BuildDSN produces a dialector if and only if dbType is exactly mysql
(none for the empty tag and for MySQL); for mysql the connection string is
user:pass@tcp(host:port)/dbName?charset=utf8mb4&parseTime=true&loc=Local for
all field values, as in the test case of the repository. -/
theorem C7_BuildDSN (g : gormStruct) :
    ((BuildDSN g).isSome = true ↔ g.dbType = "mysql") ∧
    (g.dbType ≠ "mysql" → BuildDSN g = none) ∧
    (g.dbType = "mysql" →
      BuildDSN g =
        some (Dialector.mysql
          (g.username ++ ":" ++ g.password ++ "@tcp(" ++ g.host ++ ":" ++ g.port ++ ")/" ++
            g.dbName ++ "?charset=utf8mb4&parseTime=true&loc=Local"))) ∧
    BuildDSN ⟨"mysql", "root", "123456", "127.0.0.1", "3306", "test"⟩ =
      some (Dialector.mysql
        "root:123456@tcp(127.0.0.1:3306)/test?charset=utf8mb4&parseTime=true&loc=Local") ∧
    BuildDSN ⟨"", "root", "123456", "127.0.0.1", "3306", "test"⟩ = none ∧
    BuildDSN ⟨"MySQL", "root", "123456", "127.0.0.1", "3306", "test"⟩ = none := by
  have hs : "?charset=utf8mb4&parseTime=" ++ fmtBool true ++ "&loc=" ++ "Local" =
      "?charset=utf8mb4&parseTime=true&loc=Local" := by decide
  refine ⟨?_, ?_, ?_, by decide, by decide, by decide⟩
  · unfold BuildDSN
    by_cases h : g.dbType = "mysql" <;> simp [h]
  · intro h
    unfold BuildDSN
    rw [if_neg h]
  · intro h
    unfold BuildDSN
    rw [if_pos h, ← hs]
    simp only [String.append_assoc]

/-- Witness of C7: the record of the repository test, and the tag postgres. -/
theorem C7_BuildDSN_witness :
    BuildDSN ⟨"mysql", "root", "123456", "127.0.0.1", "3306", "test"⟩ =
      some (Dialector.mysql
        ("root" ++ ":" ++ "123456" ++ "@tcp(" ++ "127.0.0.1" ++ ":" ++ "3306" ++ ")/" ++
          "test" ++ "?charset=utf8mb4&parseTime=true&loc=Local")) ∧
    BuildDSN ⟨"postgres", "root", "123456", "127.0.0.1", "3306", "test"⟩ = none :=
  ⟨(C7_BuildDSN ⟨"mysql", "root", "123456", "127.0.0.1", "3306", "test"⟩).2.2.1 rfl,
   (C7_BuildDSN ⟨"postgres", "root", "123456", "127.0.0.1", "3306", "test"⟩).2.1 (by decide)⟩

end gormx

/-! ## Theorems: redisx -/

namespace redisx

theorem redis_applyOptions_cons (f : Option OptionFunc) (l : List (Option OptionFunc))
    (o : options) :
    applyOptions (f :: l) o =
      applyOptions l (match f with
        | some g => g o
        | none => o) := rfl

theorem redis_applyOptions_append (xs ys : List (Option OptionFunc)) (o : options) :
    applyOptions (xs ++ ys) o = applyOptions ys (applyOptions xs o) := by
  simp [applyOptions, List.foldl_append]

/-- The record after the option loop, field by field. -/
theorem redis_applyOptions_fields (l : List Opt) (o : options) :
    applyOptions (l.map Opt.toFunc) o =
      { DialTimeout := lastSet (Opt.valFor Field.DialTimeout) o.DialTimeout l,
        ReadTimeout := lastSet (Opt.valFor Field.ReadTimeout) o.ReadTimeout l,
        WriteTimeout := lastSet (Opt.valFor Field.WriteTimeout) o.WriteTimeout l,
        PoolSize := lastSet (Opt.valFor Field.PoolSize) o.PoolSize l,
        PoolTimeout := lastSet (Opt.valFor Field.PoolTimeout) o.PoolTimeout l,
        IdleTimeout := lastSet (Opt.valFor Field.IdleTimeout) o.IdleTimeout l } := by
  induction l generalizing o with
  | nil => rfl
  | cons x l ih =>
    rw [List.map_cons, redis_applyOptions_cons, ih]
    simp only [lastSet_cons]
    cases x with
    | nil => rfl
    | set f v => cases f <;> rfl

/-- Two adjacent entries with different targets can be exchanged. -/
theorem redis_applyOptions_swap (o1 o2 : Opt) (h : o1.target ≠ o2.target) (o : options) :
    applyOptions [o1.toFunc, o2.toFunc] o = applyOptions [o2.toFunc, o1.toFunc] o := by
  cases o1 with
  | nil => cases o2 with
    | nil => rfl
    | set f2 v2 => cases f2 <;> rfl
  | set f1 v1 =>
    cases o2 with
    | nil => cases f1 <;> rfl
    | set f2 v2 =>
      cases f1 <;> cases f2 <;> first | rfl | exact absurd rfl h

/-- C8: the redis.Options built by InitRedis has Addr, Password and DB equal
to the arguments and each of the six tunables equal to the value of the last
entry of the option list that targets it (zero when none does, nil entries
skipped); an option leaves every field other than its own unchanged, and two
adjacent options for different fields can be exchanged without changing the
result. -/
theorem C8_InitRedis_fields (addr pass : String) (db : Int) (l : List Opt) :
    InitRedis addr pass db (l.map Opt.toFunc) =
      { Addr := addr, Password := pass, DB := db,
        DialTimeout := lastFor Field.DialTimeout l,
        ReadTimeout := lastFor Field.ReadTimeout l,
        WriteTimeout := lastFor Field.WriteTimeout l,
        PoolSize := lastFor Field.PoolSize l,
        PoolTimeout := lastFor Field.PoolTimeout l,
        IdleTimeout := lastFor Field.IdleTimeout l } ∧
    (∀ (o : Opt) (f : Field) (opts : options), o.target ≠ some f →
      (applyOptions [o.toFunc] opts).get f = opts.get f) ∧
    (∀ (xs ys : List Opt) (o1 o2 : Opt), o1.target ≠ o2.target →
      InitRedis addr pass db ((xs ++ o1 :: o2 :: ys).map Opt.toFunc) =
        InitRedis addr pass db ((xs ++ o2 :: o1 :: ys).map Opt.toFunc)) := by
  refine ⟨?_, ?_, ?_⟩
  · unfold InitRedis lastFor
    rw [redis_applyOptions_fields]
    rfl
  · intro o f opts h
    cases o with
    | nil => rfl
    | set g v => cases g <;> cases f <;> first | rfl | exact absurd rfl h
  · intro xs ys o1 o2 h
    have key : applyOptions ((xs ++ o1 :: o2 :: ys).map Opt.toFunc) options.zero =
        applyOptions ((xs ++ o2 :: o1 :: ys).map Opt.toFunc) options.zero := by
      have e1 : (xs ++ o1 :: o2 :: ys).map Opt.toFunc =
          xs.map Opt.toFunc ++ ([o1.toFunc, o2.toFunc] ++ ys.map Opt.toFunc) := by simp
      have e2 : (xs ++ o2 :: o1 :: ys).map Opt.toFunc =
          xs.map Opt.toFunc ++ ([o2.toFunc, o1.toFunc] ++ ys.map Opt.toFunc) := by simp
      rw [e1, e2, redis_applyOptions_append, redis_applyOptions_append, redis_applyOptions_append,
        redis_applyOptions_append, redis_applyOptions_swap o1 o2 h]
    unfold InitRedis
    rw [key]

/-- Witness of C8: a pool size option next to a dial timeout option, and a
read timeout option seen from the pool size field. -/
theorem C8_InitRedis_fields_witness :
    InitRedis "127.0.0.1:6379" "123456" 0
        (([Opt.nil] ++ Opt.set Field.PoolSize 8 :: Opt.set Field.DialTimeout 5 ::
          [Opt.set Field.PoolSize 9]).map Opt.toFunc) =
      InitRedis "127.0.0.1:6379" "123456" 0
        (([Opt.nil] ++ Opt.set Field.DialTimeout 5 :: Opt.set Field.PoolSize 8 ::
          [Opt.set Field.PoolSize 9]).map Opt.toFunc) ∧
    (applyOptions [(Opt.set Field.ReadTimeout 3).toFunc] options.zero).get Field.PoolSize =
      options.zero.get Field.PoolSize :=
  ⟨(C8_InitRedis_fields "127.0.0.1:6379" "123456" 0 []).2.2 [Opt.nil]
      [Opt.set Field.PoolSize 9] (Opt.set Field.PoolSize 8) (Opt.set Field.DialTimeout 5)
      (by decide),
   (C8_InitRedis_fields "127.0.0.1:6379" "123456" 0 []).2.1 (Opt.set Field.ReadTimeout 3)
      Field.PoolSize options.zero (by decide)⟩

end redisx

end Corex
